import Mathlib

/-!
Shallow embedding of `src/main.go` (a concurrent HTTP load generator) and
proofs about it.  Pure data flow is embedded as Lean functions; I/O outcome
points (multipart construction, request construction, the HTTP round trip)
are made explicit as an environment record, and the concurrency primitives
(the buffered-channel semaphore, the WaitGroup join) are embedded as
transition systems / event traces.
-/

namespace Uploader

/-- Embedding of `RequestStats` (main.go lines 18-23).  The `sync.Mutex`
field only serialises access and carries no data, so it is not part of the
state; durations are modelled as natural numbers of nanoseconds. -/
structure RequestStats where
  successCount : Nat
  failureCount : Nat
  totalTime : Nat
  deriving DecidableEq, Repr

/-- The zero value `&RequestStats{}` created in `main` (line 189). -/
def initStats : RequestStats := ⟨0, 0, 0⟩

/-- Embedding of `(*RequestStats).addSuccess` (lines 25-30): increments
`successCount` and accumulates the duration into `totalTime`. -/
def addSuccess (s : RequestStats) (duration : Nat) : RequestStats :=
  { s with successCount := s.successCount + 1, totalTime := s.totalTime + duration }

/-- Embedding of `(*RequestStats).addFailure` (lines 32-36): increments
`failureCount` only. -/
def addFailure (s : RequestStats) : RequestStats :=
  { s with failureCount := s.failureCount + 1 }

/-- Environment of one `makeRequest` call (lines 60-126): which of the
fallible steps fail, and, if the HTTP round trip happens, the response
status and the measured duration.  Each field corresponds to one `err`
check or response observation in the source, in source order. -/
structure ReqEnv where
  formFileErr : Bool
  writeErr : Bool
  newReqErr : Bool
  doErr : Bool
  status : Nat
  duration : Nat
  deriving DecidableEq, Repr

/-- Outcome of one request: `Success(duration)` or `Failure`. -/
inductive Outcome where
  | success (duration : Nat) : Outcome
  | failure : Outcome
  deriving DecidableEq, Repr

/-- Pure outcome classification extracted from the branch structure of
`makeRequest` (lines 66-125): any error along the way is a failure, and a
completed round trip is a success exactly when the status is 200
(`http.StatusOK`), carrying the measured duration. -/
def classify (e : ReqEnv) : Outcome :=
  if e.formFileErr then .failure
  else if e.writeErr then .failure
  else if e.newReqErr then .failure
  else if e.doErr then .failure
  else if e.status = 200 then .success e.duration
  else .failure

/-- Report an outcome to the aggregator, as `makeRequest` does on each path. -/
def applyOutcome (o : Outcome) (s : RequestStats) : RequestStats :=
  match o with
  | .success d => addSuccess s d
  | .failure => addFailure s

/-- Embedding of the stats effect of `makeRequest` (lines 60-126): each
early-return error path calls `addFailure`, a 200 response calls
`addSuccess(duration)`, any other status calls `addFailure`.  Logging is
not modelled. -/
def makeRequest (e : ReqEnv) (s : RequestStats) : RequestStats :=
  if e.formFileErr then addFailure s
  else if e.writeErr then addFailure s
  else if e.newReqErr then addFailure s
  else if e.doErr then addFailure s
  else if e.status = 200 then addSuccess s e.duration
  else addFailure s

/-- The aggregate stats after a sequence of `makeRequest` completions has
been applied to the zero-valued stats.  Each work unit performs exactly one
mutex-guarded stats update, so every concurrent execution of the dispatch
loop (lines 196-210) corresponds to folding the units' updates in some
order; quantifying over the list of environments covers every interleaving. -/
def runStats (envs : List ReqEnv) : RequestStats :=
  envs.foldl (fun s e => makeRequest e s) initStats

/-- Helper predicate: `e` drives `makeRequest` into one of its error paths. -/
def reqErr (e : ReqEnv) : Bool :=
  e.formFileErr || e.writeErr || e.newReqErr || e.doErr

theorem makeRequest_eq_applyOutcome (e : ReqEnv) (s : RequestStats) :
    makeRequest e s = applyOutcome (classify e) s := by
  unfold makeRequest classify applyOutcome
  obtain ⟨f1, f2, f3, f4, st, du⟩ := e
  cases f1 <;> cases f2 <;> cases f3 <;> cases f4 <;> (simp; try split) <;> rfl

theorem makeRequest_step_sum (e : ReqEnv) (s : RequestStats) :
    (makeRequest e s).successCount + (makeRequest e s).failureCount
      = s.successCount + s.failureCount + 1 := by
  rw [makeRequest_eq_applyOutcome]
  cases h : classify e <;> simp [applyOutcome, addSuccess, addFailure] <;> omega

theorem runStats_from (envs : List ReqEnv) (s : RequestStats) :
    (envs.foldl (fun s e => makeRequest e s) s).successCount
      + (envs.foldl (fun s e => makeRequest e s) s).failureCount
      = s.successCount + s.failureCount + envs.length := by
  induction envs generalizing s with
  | nil => simp
  | cons e rest ih =>
      simp only [List.foldl_cons, List.length_cons]
      rw [ih (makeRequest e s), makeRequest_step_sum]
      omega

/-- **C1.** Every invocation of `makeRequest` performs exactly one stats
update (one of `addSuccess`/`addFailure`) on every exit path, so after any
`k` of the `N` work units have reported, `successCount + failureCount` is
at most `N`, and once the dispatch loop completes and all units have
reported, `successCount + failureCount = N` exactly. -/
theorem C1_success_plus_failure_eq_total (envs : List ReqEnv) :
    (∀ e s, (makeRequest e s).successCount + (makeRequest e s).failureCount
        = s.successCount + s.failureCount + 1)
    ∧ (∀ k, (runStats (envs.take k)).successCount
          + (runStats (envs.take k)).failureCount ≤ envs.length)
    ∧ (runStats envs).successCount + (runStats envs).failureCount = envs.length := by
  refine ⟨makeRequest_step_sum, ?_, ?_⟩
  · intro k
    have h := runStats_from (envs.take k) initStats
    simp only [runStats, initStats] at h ⊢
    rw [h]
    simp only [List.length_take]
    omega
  · have h := runStats_from envs initStats
    simp only [runStats, initStats] at h ⊢
    omega

/-- **C2.** Outcome classification is a total function of the error/status
environment: it yields `Success(duration)` exactly when no step failed and
the status is exactly 200; every other status (other 2xx codes included)
and every error yields `Failure`; and `makeRequest` updates the stats
according to this classification from any prior stats state, so a fixed
`(status, error)` input classifies identically independent of call order. -/
theorem C2_classification (e : ReqEnv) (d : Nat) (s : RequestStats) :
    (classify e = Outcome.success d
      ↔ reqErr e = false ∧ e.status = 200 ∧ d = e.duration)
    ∧ (e.status ≠ 200 → classify e = Outcome.failure)
    ∧ makeRequest e s = applyOutcome (classify e) s := by
  refine ⟨?_, ?_, makeRequest_eq_applyOutcome e s⟩
  · unfold classify reqErr
    obtain ⟨f1, f2, f3, f4, st, du⟩ := e
    cases f1 <;> cases f2 <;> cases f3 <;> cases f4 <;>
      simp only [Bool.false_or, Bool.true_or, if_true, if_false,
        Bool.false_eq_true, and_false, false_and] <;>
      (try simp) <;> split <;> simp_all <;> omega
  · intro hne
    unfold classify
    obtain ⟨f1, f2, f3, f4, st, du⟩ := e
    cases f1 <;> cases f2 <;> cases f3 <;> cases f4 <;> simp_all

/-- Fixed environment with a 204 (No Content) response and no errors. -/
def env204 : ReqEnv := ⟨false, false, false, false, 204, 5⟩

/-- Witness for C2: a 204 response - a 2xx status other than 200 - is
classified as `Failure`. -/
theorem C2_classification_witness :
    (204 : Nat) ≠ 200 ∧ classify env204 = Outcome.failure :=
  ⟨by decide, (C2_classification env204 0 initStats).2.1 (by decide)⟩

/-- **C8.** `addFailure` increments `failureCount` and leaves
`successCount` and `totalTime` unchanged, and every `Failure` path of
`makeRequest` goes through `addFailure`, so no duration is ever recorded
for a failed request. -/
theorem C8_failure_frame (s : RequestStats) (e : ReqEnv) :
    (addFailure s).successCount = s.successCount
    ∧ (addFailure s).totalTime = s.totalTime
    ∧ (addFailure s).failureCount = s.failureCount + 1
    ∧ (classify e = Outcome.failure → makeRequest e s = addFailure s) := by
  refine ⟨rfl, rfl, rfl, ?_⟩
  intro h
  rw [makeRequest_eq_applyOutcome, h]
  rfl

/-- Witness for C8: a request failing with status 500 leaves the zero
stats' `successCount` and `totalTime` at 0 and sets `failureCount` to 1. -/
theorem C8_failure_frame_witness :
    classify ⟨false, false, false, false, 500, 7⟩ = Outcome.failure
    ∧ makeRequest ⟨false, false, false, false, 500, 7⟩ initStats
        = addFailure initStats :=
  ⟨by decide,
    (C8_failure_frame initStats ⟨false, false, false, false, 500, 7⟩).2.2.2
      (by decide)⟩

/-- Auxiliary scan for `goExt`: returns the suffix starting at the LAST
dot of the character list, or `none` when there is no dot. -/
def extAux : List Char → Option (List Char)
  | [] => none
  | c :: cs =>
    match extAux cs with
    | some e => some e
    | none => if c = '.' then some (c :: cs) else none

/-- Embedding of Go's `filepath.Ext` (used at main.go line 142) for base
names (directory entry names contain no path separator): the suffix
beginning at the final dot, or the empty string when there is no dot. -/
def goExt (s : String) : String :=
  match extAux s.toList with
  | none => ""
  | some e => String.mk e

/-- One entry of the directory listing returned by `os.ReadDir` (line 132):
its base name, whether it is a directory, and its byte content, where
`none` models an `os.ReadFile` error (line 148). -/
structure DirEntry where
  name : String
  isDir : Bool
  content : Option (List Nat)
  deriving DecidableEq, Repr

/-- The extension test of main.go line 143: the extension equals `.jpg`,
`.jpeg` or `.png`, an exact (case-sensitive) string match. -/
def extMatches (s : String) : Bool :=
  goExt s == ".jpg" || goExt s == ".jpeg" || goExt s == ".png"

/-- An entry that the loop body of `loadImagesFromFolder` actually loads:
not a directory, matching extension, and readable. -/
def eligibleEntry (f : DirEntry) : Bool :=
  !f.isDir && extMatches f.name && f.content.isSome

/-- Embedding of the loop of `loadImagesFromFolder` (lines 137-156):
directories are skipped, non-matching extensions are skipped, unreadable
files are skipped with a warning, and each remaining file appends its
bytes to `images` and its name to `imageNames`, in directory order. -/
def loadLoop : List DirEntry → List (List Nat) × List String
  | [] => ([], [])
  | f :: rest =>
    if f.isDir then loadLoop rest
    else if !extMatches f.name then loadLoop rest
    else
      match f.content with
      | none => loadLoop rest
      | some d => ((loadLoop rest).1.cons d, (loadLoop rest).2.cons f.name)

/-- Embedding of `loadImagesFromFolder` (lines 128-163) given a successful
directory listing: runs the loop, then returns the error
`"no valid images found in folder"` when zero images were loaded (line
158), and the two slices otherwise. -/
def loadImagesFromFolder (files : List DirEntry) :
    Except String (List (List Nat) × List String) :=
  let r := loadLoop files
  if r.1 = [] then .error "no valid images found in folder" else .ok r

/-- Embedding of `main`'s control flow from the corpus load onward (lines
181-210): when `loadImagesFromFolder` fails, `main` prints and returns
(line 184) and the dispatch loop never starts (`none`); otherwise the
dispatch loop runs all `totalRequests` units. -/
def mainModel (files : List DirEntry) (totalRequests : Nat)
    (envs : Nat → ReqEnv) : Option RequestStats :=
  match loadImagesFromFolder files with
  | .error _ => none
  | .ok _ => some (runStats ((List.range totalRequests).map envs))

theorem loadLoop_eq_filter (files : List DirEntry) :
    loadLoop files
      = ((files.filter eligibleEntry).map (fun f => f.content.getD []),
         (files.filter eligibleEntry).map DirEntry.name) := by
  induction files with
  | nil => rfl
  | cons f rest ih =>
      unfold loadLoop
      rcases hd : f.isDir with _ | _ <;>
        rcases he : extMatches f.name with _ | _ <;>
        rcases hc : f.content with _ | d <;>
        simp [List.filter_cons, eligibleEntry, hd, he, hc, ih]

/-- **C7.** The corpus loader errors (with `"no valid images found in
folder"`) exactly when zero eligible files were successfully loaded; on
success the loaded names are exactly the non-directory entries with an
exactly-matching `.jpg`/`.jpeg`/`.png` extension that were readable, in
directory order; and on a load error `main` never starts the dispatch
loop. -/
theorem C7_loader_error_iff (files : List DirEntry) :
    (loadImagesFromFolder files = Except.error "no valid images found in folder"
      ↔ files.filter eligibleEntry = [])
    ∧ (∀ imgs ns, loadImagesFromFolder files = Except.ok (imgs, ns) →
        ns = (files.filter eligibleEntry).map DirEntry.name)
    ∧ (∀ n envs, files.filter eligibleEntry = [] →
        mainModel files n envs = none) := by
  have hl := loadLoop_eq_filter files
  refine ⟨?_, ?_, ?_⟩
  · unfold loadImagesFromFolder
    rw [hl]
    by_cases h : files.filter eligibleEntry = [] <;> simp [h]
  · intro imgs ns h
    unfold loadImagesFromFolder at h
    rw [hl] at h
    by_cases hf : files.filter eligibleEntry = [] <;> simp [hf] at h
    exact h.2.symm
  · intro n envs h
    unfold mainModel loadImagesFromFolder
    rw [hl]
    simp [h]

/-- Directory listing in which no entry is eligible: a case-mismatched
extension, a directory named like an image, an unreadable image, and a
non-image extension. -/
def files0 : List DirEntry :=
  [⟨"x.JPG", false, some [1]⟩, ⟨"sub.jpg", true, some []⟩,
   ⟨"broken.png", false, none⟩, ⟨"notes.txt", false, some [2]⟩]

/-- Witness for C7: on `files0` (which includes an upper-case `.JPG`,
excluded by the case-sensitive match) the loader errors and the dispatch
loop never starts. -/
theorem C7_loader_error_iff_witness :
    files0.filter eligibleEntry = []
    ∧ loadImagesFromFolder files0 = Except.error "no valid images found in folder"
    ∧ mainModel files0 5 (fun _ => env204) = none :=
  ⟨by decide, (C7_loader_error_iff files0).1.mpr (by decide),
    (C7_loader_error_iff files0).2.2 5 (fun _ => env204) (by decide)⟩

/-- **C9.** When the loader succeeds, the two returned slices have equal
length, are the payloads resp. names of exactly the eligible entries in
directory-enumeration order, and for every index `i` the payload
`imgs[i]` is the byte content of the directory entry named `ns[i]`. -/
theorem C9_loader_slices_aligned (files : List DirEntry)
    (imgs : List (List Nat)) (ns : List String)
    (h : loadImagesFromFolder files = Except.ok (imgs, ns)) :
    imgs.length = ns.length
    ∧ imgs = (files.filter eligibleEntry).map (fun f => f.content.getD [])
    ∧ ns = (files.filter eligibleEntry).map DirEntry.name
    ∧ ∀ i (hi : i < ns.length) (hi2 : i < imgs.length),
        ∃ f, f ∈ files ∧ f.name = ns.get ⟨i, hi⟩
          ∧ f.content = some (imgs.get ⟨i, hi2⟩) := by
  have hl := loadLoop_eq_filter files
  unfold loadImagesFromFolder at h
  rw [hl] at h
  by_cases hf : files.filter eligibleEntry = [] <;> simp [hf] at h
  obtain ⟨hi, hn⟩ := h
  subst hi; subst hn
  refine ⟨by simp, rfl, rfl, ?_⟩
  intro i hi hi2
  simp only [List.length_map] at hi
  refine ⟨(files.filter eligibleEntry).get ⟨i, hi⟩, ?_, ?_, ?_⟩
  · exact List.mem_of_mem_filter (List.get_mem _ _ hi)
  · simp [List.get_eq_getElem, List.getElem_map]
  · have hmem := List.get_mem (files.filter eligibleEntry) i hi
    have helig : eligibleEntry ((files.filter eligibleEntry).get ⟨i, hi⟩) = true :=
      List.of_mem_filter hmem
    have hsome : ((files.filter eligibleEntry).get ⟨i, hi⟩).content.isSome := by
      unfold eligibleEntry at helig
      simp only [Bool.and_eq_true] at helig
      exact helig.2
    simp only [List.get_eq_getElem, List.getElem_map]
    cases hc : ((files.filter eligibleEntry).get ⟨i, hi⟩).content with
    | none => rw [hc] at hsome; simp at hsome
    | some d => simp [hc]

/-- Directory listing with two eligible images surrounding a text file. -/
def files2 : List DirEntry :=
  [⟨"a.jpg", false, some [10]⟩, ⟨"b.txt", false, some [9]⟩,
   ⟨"c.png", false, some [11, 12]⟩]

/-- Witness for C9 at `files2`: the loader returns the two image payloads
and their names, aligned and in directory order. -/
theorem C9_loader_slices_aligned_witness :
    loadImagesFromFolder files2 = Except.ok ([[10], [11, 12]], ["a.jpg", "c.png"])
    ∧ ([[10], [11, 12]] : List (List Nat)).length
        = (["a.jpg", "c.png"] : List String).length :=
  have h : loadImagesFromFolder files2
      = Except.ok ([[10], [11, 12]], ["a.jpg", "c.png"]) := by rfl
  ⟨h, (C9_loader_slices_aligned files2 [[10], [11, 12]] ["a.jpg", "c.png"] h).1⟩

/-- Embedding of `imageIndex := i % len(images)` (main.go line 200). -/
def imageIndexOf (i len : Nat) : Nat := i % len

/-- The work items handed to the goroutines by the dispatch loop (lines
196-208): for each `i` in `[0, totalRequests)` the tuple
`(i, images[imageIndex], imageNames[imageIndex])` with
`imageIndex = i % len(images)`.  `getD` is safe here because
`i % len < len` whenever the corpus is non-empty. -/
def workItems (imgs : List (List Nat)) (ns : List String)
    (totalRequests : Nat) : List (Nat × List Nat × String) :=
  (List.range totalRequests).map fun i =>
    (i, imgs.getD (imageIndexOf i imgs.length) [],
        ns.getD (imageIndexOf i imgs.length) "")

/-- **C5.** Corpus selection is cyclic and deterministic: work item `i`
carries exactly corpus element `i % len(corpus)` (payload and name), and
with a 3-item corpus and 7 requests the index sequence is
`[0,1,2,0,1,2,0]`. -/
theorem C5_cyclic_selection (imgs : List (List Nat)) (ns : List String)
    (totalRequests i : Nat) (hi : i < totalRequests) (hne : 0 < imgs.length) :
    (workItems imgs ns totalRequests).getD i (0, [], "")
      = (i, imgs.getD (i % imgs.length) [], ns.getD (i % imgs.length) "")
    ∧ (List.range 7).map (fun j => imageIndexOf j 3) = [0, 1, 2, 0, 1, 2, 0] := by
  refine ⟨?_, by decide⟩
  unfold workItems imageIndexOf
  rw [List.getD_eq_getElem?_getD, List.getElem?_map]
  simp [List.getElem?_range hi]

/-- Concrete 3-image corpus used as the C5 witness. -/
def imgs3 : List (List Nat) := [[1], [2], [3]]

/-- Names of the concrete 3-image corpus. -/
def names3 : List String := ["a.jpg", "b.jpg", "c.jpg"]

/-- Witness for C5: with the 3-item corpus and 7 requests, work item 4
uses corpus element `4 % 3 = 1`. -/
theorem C5_cyclic_selection_witness :
    (4 < 7 ∧ 0 < imgs3.length)
    ∧ (workItems imgs3 names3 7).getD 4 (0, [], "")
        = (4, imgs3.getD (4 % imgs3.length) [], names3.getD (4 % imgs3.length) "")
    ∧ (List.range 7).map (fun j => imageIndexOf j 3) = [0, 1, 2, 0, 1, 2, 0] :=
  ⟨⟨by decide, by decide⟩,
    (C5_cyclic_selection imgs3 names3 7 4 (by decide) (by decide)).1,
    (C5_cyclic_selection imgs3 names3 7 4 (by decide) (by decide)).2⟩

/-- Embedding of `memoryDifference := finalMemory - initialMemory` (main.go
line 219): subtraction of `uint64` values, i.e. subtraction modulo `2^64`
on values below `2^64`. -/
def memoryDifference (finalMemory initialMemory : Nat) : Nat :=
  (finalMemory + 2 ^ 64 - initialMemory) % 2 ^ 64

/-- **C10.** The reported memory difference is unsigned 64-bit
subtraction: when the final sample is below the initial one the result
wraps modulo `2^64`, equalling `2^64 - (initial - final)` - a positive
value of at least `2^64 - initial` - instead of a negative delta; adding
back the true drop recovers a full `2^64` wrap. -/
theorem C10_memory_wraps (finalMemory initialMemory : Nat)
    (hf : finalMemory < 2 ^ 64) (hi : initialMemory < 2 ^ 64)
    (hlt : finalMemory < initialMemory) :
    memoryDifference finalMemory initialMemory
        = 2 ^ 64 - (initialMemory - finalMemory)
    ∧ 2 ^ 64 - initialMemory ≤ memoryDifference finalMemory initialMemory
    ∧ 0 < memoryDifference finalMemory initialMemory
    ∧ memoryDifference finalMemory initialMemory
        + (initialMemory - finalMemory) = 2 ^ 64 := by
  unfold memoryDifference
  have h1 : finalMemory + 2 ^ 64 - initialMemory < 2 ^ 64 := by omega
  rw [Nat.mod_eq_of_lt h1]
  omega

/-- Witness for C10: a drop from 1000 to 10 bytes is reported as
`2^64 - 990`, a huge positive value. -/
theorem C10_memory_wraps_witness :
    ((10 : Nat) < 2 ^ 64 ∧ (1000 : Nat) < 2 ^ 64 ∧ (10 : Nat) < 1000)
    ∧ memoryDifference 10 1000 = 2 ^ 64 - (1000 - 10) :=
  ⟨⟨by decide, by decide, by decide⟩,
    (C10_memory_wraps 10 1000 (by decide) (by decide) (by decide)).1⟩

/-- Embedding of the mean-latency expression of the final report
(main.go line 226): `stats.totalTime / time.Duration(stats.successCount)`.
Go's integer division panics when the divisor is zero; `none` models that
runtime panic, `some` the computed mean. -/
def meanRequestTime (s : RequestStats) : Option Nat :=
  if s.successCount = 0 then none else some (s.totalTime / s.successCount)

/-- Run in which every request fails at the HTTP round trip (e.g. the
server answers 500 or the transport errors out). -/
def allFailEnvs : List ReqEnv :=
  List.replicate 3 ⟨false, false, false, false, 500, 4⟩

/-- **C6** (code bug): after a run in which every request fails,
`successCount = 0` and the report's mean-latency division has no defined
value - the unguarded `totalTime / successCount` at line 226 is an
integer division by zero, which panics in Go. -/
theorem C6_mean_divides_by_zero :
    (runStats allFailEnvs).successCount = 0
    ∧ (runStats allFailEnvs).failureCount = 3
    ∧ meanRequestTime (runStats allFailEnvs) = none := by decide

/-- Transition relation of the buffered-channel semaphore
`make(chan struct{}, concurrentRequests)` (main.go line 192), on its
occupancy count: a send (`semaphore <- struct{}{}`, line 198, permit
acquisition) is only enabled while the buffer is below capacity - a send
on a full buffered channel blocks - and a receive (`<-semaphore`, line
203, permit release) is only enabled while the buffer is non-empty. -/
inductive SemStep (cap : Nat) : Nat → Nat → Prop where
  | acquire {n : Nat} : n < cap → SemStep cap n (n + 1)
  | release {n : Nat} : 0 < n → SemStep cap n (n - 1)

/-- Occupancy counts reachable from the initially empty semaphore by any
interleaving of acquisitions and releases. -/
def SemReachable (cap n : Nat) : Prop :=
  Relation.ReflTransGen (SemStep cap) 0 n

/-- **C3.** In every interleaving, the number of work units between permit
acquisition and permit release - the occupancy of the semaphore channel -
never exceeds the capacity `concurrentRequests`. -/
theorem C3_semaphore_bound (cap n : Nat) (h : SemReachable cap n) : n ≤ cap := by
  induction h with
  | refl => exact Nat.zero_le cap
  | tail hab hbc ih =>
      cases hbc with
      | acquire hlt => omega
      | release hpos => omega

/-- Witness for C3: with capacity 10, the state after one acquisition is
reachable and within the bound. -/
theorem C3_semaphore_bound_witness : SemReachable 10 1 ∧ 1 ≤ 10 :=
  have h : SemReachable 10 1 :=
    Relation.ReflTransGen.single (SemStep.acquire (by decide))
  ⟨h, C3_semaphore_bound 10 1 h⟩

/-- Events of one run of the dispatch loop with `N` work units, for the
synchronisation skeleton of main.go lines 196-210: `report i` is unit
`i`'s stats update inside `makeRequest`; `done i` is the deferred
`wg.Done()` (line 61) firing when `makeRequest` returns; `sleepEnd i` is
the completion of the 20ms pacing `time.Sleep` (line 206); `releaseP i`
is the deferred semaphore receive (line 203); `waitRet` is `wg.Wait()`
returning in `main` (line 210). -/
inductive Ev (N : Nat) where
  | report (i : Fin N)
  | done (i : Fin N)
  | sleepEnd (i : Fin N)
  | releaseP (i : Fin N)
  | waitRet
  deriving DecidableEq, Repr

/-- All events of a run with `N` units. -/
def evList (N : Nat) : List (Ev N) :=
  Ev.waitRet ::
    ((List.finRange N).map fun i =>
      [Ev.report i, Ev.done i, Ev.sleepEnd i, Ev.releaseP i]).flatten

/-- A trace is a valid execution history of the dispatch loop when it
contains each event exactly once, respects each goroutine's program order
(stats report, then the deferred `wg.Done`, then the pacing sleep, then
the deferred permit release), and respects the only ordering `wg.Wait()`
imposes: it returns after every unit's `wg.Done`.  Nothing synchronises
`wg.Wait()` with the pacing sleeps or the permit releases. -/
@[reducible] def ValidTrace (N : Nat) (t : List (Ev N)) : Prop :=
  (∀ e ∈ evList N, t.count e = 1)
  ∧ t.length = (evList N).length
  ∧ ∀ i : Fin N,
      t.indexOf (Ev.report i) < t.indexOf (Ev.done i)
      ∧ t.indexOf (Ev.done i) < t.indexOf (Ev.sleepEnd i)
      ∧ t.indexOf (Ev.sleepEnd i) < t.indexOf (Ev.releaseP i)
      ∧ t.indexOf (Ev.done i) < t.indexOf (Ev.waitRet : Ev N)

/-- A valid single-unit trace in which `wg.Wait()` returns while the unit
is still in its pacing sleep and still holds its permit.  It is realisable
in the program: the goroutine finishes `makeRequest` (firing the deferred
`wg.Done`), `main`'s `wg.Wait()` returns, and only then does the goroutine
finish sleeping and release the semaphore. -/
def badTrace : List (Ev 1) :=
  [Ev.report 0, Ev.done 0, Ev.waitRet, Ev.sleepEnd 0, Ev.releaseP 0]

/-- Counterexample to **C4** as stated: in `badTrace`, `wg.Wait()` returns
strictly before the unit's permit release (and before its pacing sleep
ends), so the dispatch loop's join does not wait for the full lifecycle. -/
theorem C4_join_counterexample :
    ValidTrace 1 badTrace
    ∧ badTrace.indexOf Ev.waitRet < badTrace.indexOf (Ev.releaseP 0)
    ∧ ¬ badTrace.indexOf (Ev.releaseP 0) < badTrace.indexOf (Ev.waitRet : Ev 1) := by
  decide

/-- **C4** (amended): `wg.Wait()` returns only after every unit's
`makeRequest` has returned, and in particular after every unit has
reported its outcome to the stats aggregator - so the driver's final read
of the stats sees all `N` outcomes - but not necessarily after the pacing
sleeps and permit releases, which the deferred `wg.Done` (fired at
`makeRequest` return, before the sleep) does not cover. -/
theorem C4_join_after_reports (N : Nat) (t : List (Ev N))
    (h : ValidTrace N t) (i : Fin N) :
    t.indexOf (Ev.report i) < t.indexOf (Ev.waitRet : Ev N)
    ∧ t.indexOf (Ev.done i) < t.indexOf (Ev.waitRet : Ev N) :=
  ⟨lt_trans (h.2.2 i).1 (h.2.2 i).2.2.2, (h.2.2 i).2.2.2⟩

/-- A valid single-unit trace in which the full lifecycle finishes before
`wg.Wait()` returns. -/
def goodTrace : List (Ev 1) :=
  [Ev.report 0, Ev.done 0, Ev.sleepEnd 0, Ev.releaseP 0, Ev.waitRet]

/-- Witness for the amended C4 at `goodTrace`. -/
theorem C4_join_after_reports_witness :
    ValidTrace 1 goodTrace
    ∧ goodTrace.indexOf (Ev.report 0) < goodTrace.indexOf (Ev.waitRet : Ev 1) :=
  have h : ValidTrace 1 goodTrace := by decide
  ⟨h, (C4_join_after_reports 1 goodTrace h 0).1⟩

end Uploader
